import Mathlib

/-
Verification of the convmag unit-conversion engine.

The definitions below are a shallow embedding of the Python sources:
  * `src/src/convmag/convmag_functions.py` (the package, the authoritative copy)
  * `src/convmag.py` (the legacy single-file copy, embedded as the "Legacy" table)

Numbers are modelled as rationals (exact arithmetic standing in for Python
floats), Python dicts as association lists looked up with `find?`, the Python
set `units` by membership in the list of tokens obtained by splitting every
table key on "_", and Python exceptions (IndexError from `startunit[0]` on an
empty string, UnboundLocalError from `calculate_unitcell_volume` when `vol` is
never assigned) as an `Except` error type.
-/

namespace Convmag

/-- permeability of free space in Vs/Am: `MU_0 = 4 * 3.14159 * 1e-7`. -/
def MU_0 : ℚ := 4 * (314159 / 100000) * (1 / 10 ^ 7)

/-- Bohr magneton in Am^2: `MU_B = 9.274015e-24`. -/
def MU_B : ℚ := 9274015 / 10 ^ 30

/-- The conversion-factor dict `convmag` of `convmag_functions.py`, with each
factor expression evaluated to an exact rational. -/
def convmagTable : List (String × ℚ) :=
  [("T_G", 10 ^ 4),
   ("T_Oe", 10 ^ 4),
   ("A/m_T", MU_0),
   ("A/m_G", 10 ^ 4 * MU_0),
   ("G_Oe", 1),
   ("A/m_Oe", 10 ^ 4 * MU_0),
   ("emu/cm^3_T", 10 ^ 3 * MU_0),
   ("erg/Oecm^3_A/m", 10 ^ 3),
   ("emu/g_Am^2/kg", 1),
   ("J/m^3_GOe", 10 ^ 8 * MU_0),
   ("J/m^3_erg/cm^3", 10),
   ("erg/cm^3_GOe", 10 ^ 7 * MU_0),
   ("Am^2_emu", 10 ^ 3),
   ("Am^2_erg/G", 10 ^ 3),
   ("Am^2_erg/Oe", 10 ^ 3),
   ("emu_erg/G", 1),
   ("muB_Am^2", MU_B),
   ("muB_emu", 10 ^ 3 * MU_B)]

/-- The conversion-factor dict `convmag` of the legacy top-level `convmag.py`.
It differs from `convmagTable` in the `"A/m_Oe"` factor (`1e3 * MU_0` instead
of `1e4 * MU_0`) and has `"GOe_erg/cm^3" : 1e3 * MU_0` in place of
`"erg/cm^3_GOe" : 1e7 * MU_0`. -/
def convmagLegacyTable : List (String × ℚ) :=
  [("T_G", 10 ^ 4),
   ("T_Oe", 10 ^ 4),
   ("A/m_T", MU_0),
   ("A/m_G", 10 ^ 4 * MU_0),
   ("G_Oe", 1),
   ("A/m_Oe", 10 ^ 3 * MU_0),
   ("emu/cm^3_T", 10 ^ 3 * MU_0),
   ("erg/Oecm^3_A/m", 10 ^ 3),
   ("emu/g_Am^2/kg", 1),
   ("J/m^3_GOe", 10 ^ 8 * MU_0),
   ("J/m^3_erg/cm^3", 10),
   ("GOe_erg/cm^3", 10 ^ 3 * MU_0),
   ("Am^2_emu", 10 ^ 3),
   ("Am^2_erg/G", 10 ^ 3),
   ("Am^2_erg/Oe", 10 ^ 3),
   ("emu_erg/G", 1),
   ("muB_Am^2", MU_B),
   ("muB_emu", 10 ^ 3 * MU_B)]

/-- The dict `factors` mapping single-character metric symbols to scales. -/
def factorsTable : List (String × ℚ) :=
  [("M", 10 ^ 6),
   ("k", 10 ^ 3),
   ("m", 1 / 10 ^ 3),
   ("µ", 1 / 10 ^ 6)]

/-- Helper for `splitOnUS`: accumulates the current token (reversed). -/
def splitUS : List Char → List Char → List String
  | [], acc => [String.mk acc.reverse]
  | c :: rest, acc =>
      if c = '_' then String.mk acc.reverse :: splitUS rest []
      else splitUS rest (c :: acc)

/-- Python's `x.split("_")` for the single-character separator "_". -/
def splitOnUS (s : String) : List String :=
  splitUS s.data []

/-- The set comprehension
`units = {i for a in [x.split("_") for x in list(convmag.keys())] for i in a}`,
modelled as the list of all tokens of all keys (the Python set is only ever
used for membership, which agrees with membership in this list). -/
def unitsOf (tbl : List (String × ℚ)) : List String :=
  (tbl.map (fun kv => splitOnUS kv.1)).flatten

/-- Python dict subscript `tbl[key]`, returning `none` where Python raises
`KeyError`. -/
def lookupFactor (tbl : List (String × ℚ)) (k : String) : Option ℚ :=
  (tbl.find? (fun kv => kv.1 == k)).map (fun kv => kv.2)

/-- The Python exceptions that the embedded functions can raise. -/
inductive PyExn where
  | indexError
  | unboundLocalError
deriving DecidableEq

instance {ε α : Type} [DecidableEq ε] [DecidableEq α] : DecidableEq (Except ε α) :=
  fun a b =>
  match a, b with
  | .ok x, .ok y =>
      if h : x = y then isTrue (by rw [h]) else isFalse (fun hc => h (Except.ok.inj hc))
  | .error x, .error y =>
      if h : x = y then isTrue (by rw [h]) else isFalse (fun hc => h (Except.error.inj hc))
  | .ok _, .error _ => isFalse (fun hc => Except.noConfusion hc)
  | .error _, .ok _ => isFalse (fun hc => Except.noConfusion hc)

/-- Result of resolving one raw unit string: the base unit `s_u`/`e_u`, the
scale `pre`/`post` (with factor strings already evaluated), and whether the
"not recognised" diagnostic was printed (in which case the code continues
with the sentinel base `""` and scale 1). -/
structure ResolveOut where
  base : String
  scale : ℚ
  unrec : Bool
deriving DecidableEq

/-- The `elif`/`else` part of unit resolution, acting on the character list of
the raw unit string: `startunit[0]` (`IndexError` on the empty string),
`startunit[0] in list(factors) and startunit[1:] in units`, and the final
`else` that prints the diagnostic and continues with `s_u = ""`, `pre = "1"`. -/
def resolveChars (tbl : List (String × ℚ)) : List Char → Except PyExn ResolveOut
  | [] => .error .indexError
  | c :: rest =>
      match factorsTable.find? (fun kv => kv.1 == String.mk [c]) with
      | some kv =>
          if String.mk rest ∈ unitsOf tbl then .ok ⟨String.mk rest, kv.2, false⟩
          else .ok ⟨"", 1, true⟩
      | none => .ok ⟨"", 1, true⟩

/-- The unit-resolution branch of `convert_unit` (lines 70-92 of
`convmag_functions.py`), for one raw unit string:
`if startunit in units: ...`
`elif startunit[0] in list(factors) and startunit[1:] in units: ...`
`else: <print diagnostic>; s_u = ""; pre = "1"`. -/
def resolveUnitT (tbl : List (String × ℚ)) (u : String) : Except PyExn ResolveOut :=
  if u ∈ unitsOf tbl then .ok ⟨u, 1, false⟩
  else resolveChars tbl u.data

/-- Which of the two print formats the verbose branch chooses:
`{conv:.5f}` (fixed-point, 5 decimals) or `{conv:.5e}` (scientific). -/
inductive NumFmt where
  | fixed5
  | sci5
deriving DecidableEq

/-- Everything observable about one `convert_unit` call that returns:
the returned value `conv` (`none` for Python `None`), the two "unit not
recognised" diagnostics, the "Conversion not available" diagnostic, and the
format chosen by the verbose branch (when it prints). -/
structure ConvOut where
  value : Option ℚ
  unrecStart : Bool
  unrecEnd : Bool
  notAvailable : Bool
  verboseFmt : Option NumFmt
deriving DecidableEq

/-- The try/except chain of `convert_unit` (lines 94-102): forward key first,
then the reverse key inverted, else `conv` stays `None`. -/
def convValue (tbl : List (String × ℚ)) (number : ℚ) (r1 r2 : ResolveOut) : Option ℚ :=
  match lookupFactor tbl (r1.base ++ "_" ++ r2.base) with
  | some F => some (number * r1.scale * F / r2.scale)
  | none =>
      match lookupFactor tbl (r2.base ++ "_" ++ r1.base) with
      | some Frev => some (number * r1.scale * (1 / Frev) / r2.scale)
      | none => none

/-- The "Conversion not available" diagnostic: printed exactly when both dict
lookups raise `KeyError` and `s_u in units and e_u in units`. -/
def convNotAvail (tbl : List (String × ℚ)) (r1 r2 : ResolveOut) : Bool :=
  match lookupFactor tbl (r1.base ++ "_" ++ r2.base),
        lookupFactor tbl (r2.base ++ "_" ++ r1.base) with
  | none, none => decide (r1.base ∈ unitsOf tbl ∧ r2.base ∈ unitsOf tbl)
  | _, _ => false

/-- The verbose branch's choice between `{conv:.5f}` and `{conv:.5e}`:
`if 1e3 >= conv >= 1e-3` selects fixed-point. -/
def verboseFormat (value : Option ℚ) : Option NumFmt :=
  match value with
  | some v => some (if 1000 ≥ v ∧ v ≥ 1 / 1000 then NumFmt.fixed5 else NumFmt.sci5)
  | none => none

/-- The body of `convert_unit` after both unit resolutions. -/
def convCore (tbl : List (String × ℚ)) (number : ℚ) (r1 r2 : ResolveOut)
    (verbose : Bool) : ConvOut :=
  ⟨convValue tbl number r1 r2, r1.unrec, r2.unrec, convNotAvail tbl r1 r2,
   if verbose then verboseFormat (convValue tbl number r1 r2) else none⟩

/-- `convert_unit(number, startunit, endunit, verbose)`, parameterized by the
conversion table. A raised `IndexError` propagates (there is no handler). -/
def convert_unitT (tbl : List (String × ℚ)) (number : ℚ)
    (startunit endunit : String) (verbose : Bool) : Except PyExn ConvOut :=
  match resolveUnitT tbl startunit with
  | .error e => .error e
  | .ok r1 =>
      match resolveUnitT tbl endunit with
      | .error e => .error e
      | .ok r2 => .ok (convCore tbl number r1 r2 verbose)

/-- `convert_unit` of `convmag_functions.py` (the package copy). -/
def convert_unit (number : ℚ) (startunit endunit : String) (verbose : Bool) :
    Except PyExn ConvOut :=
  convert_unitT convmagTable number startunit endunit verbose

/-- `convert_unit` of the legacy top-level `convmag.py`. -/
def convert_unit_legacy (number : ℚ) (startunit endunit : String) (verbose : Bool) :
    Except PyExn ConvOut :=
  convert_unitT convmagLegacyTable number startunit endunit verbose

/-- The numeric result of a non-verbose `convert_unit` call, `none` for both
Python `None` and a raised exception. -/
def convVal (x : ℚ) (s e : String) : Option ℚ :=
  match convert_unit x s e false with
  | .ok out => out.value
  | .error _ => none

/-- `calculate_unitcell_volume(a, b, c, gamma)`: `vol` is assigned only in the
`gamma == 90` and `gamma == 120` branches; any other `gamma` reaches
`return vol` with `vol` unbound, raising `UnboundLocalError`. -/
def calculate_unitcell_volume (a b c gamma : ℚ) : Except PyExn ℚ :=
  if gamma = 90 then .ok (a * b * c)
  else if gamma = 120 then .ok (866 / 1000 * a ^ 2 * c)
  else .error .unboundLocalError

/-- `muB_per_fu_to_Tesla(muB_per_fu, num_fu, vol)`:
`moment = muB_per_fu * num_fu * MU_B; moment_vol = moment / vol;`
`polarisation = moment_vol * MU_0`. -/
def muB_per_fu_to_Tesla (muB_per_fu num_fu vol : ℚ) : ℚ :=
  muB_per_fu * num_fu * MU_B / vol * MU_0

/-- `Tesla_to_muB_per_fu(polarisation, num_fu, vol)`:
`moment_vol = polarisation / MU_0; moment = moment_vol * vol;`
`muB_per_fu = moment / (num_fu * MU_B)`. -/
def Tesla_to_muB_per_fu (polarisation num_fu vol : ℚ) : ℚ :=
  polarisation / MU_0 * vol / (num_fu * MU_B)

/-- A raw unit string that is itself a base unit resolves to itself with
scale 1 (full-string membership is tested first). -/
theorem resolve_mem (tbl : List (String × ℚ)) (u : String) (hu : u ∈ unitsOf tbl) :
    resolveUnitT tbl u = .ok ⟨u, 1, false⟩ := by
  unfold resolveUnitT
  rw [if_pos hu]

/-- Resolution of a successfully returning call always yields either a base
unit of the table (when no diagnostic was printed) or the sentinel `""`
together with the diagnostic. -/
theorem resolve_ok_cases (u : String) (r : ResolveOut)
    (h : resolveUnitT convmagTable u = .ok r) :
    (r.unrec = false → r.base ∈ unitsOf convmagTable) ∧
    (r.unrec = true → r.base = "") := by
  unfold resolveUnitT at h
  by_cases hm : u ∈ unitsOf convmagTable
  · rw [if_pos hm] at h
    injection h with h
    subst h
    exact ⟨fun _ => hm, fun hc => Bool.noConfusion hc⟩
  · rw [if_neg hm] at h
    rcases hd : u.data with _ | ⟨c, rest⟩ <;> rw [hd] at h
    · exact absurd h (by simp [resolveChars])
    · simp only [resolveChars] at h
      rcases hf : factorsTable.find? (fun kv => kv.1 == String.mk [c]) with _ | kv <;>
        simp only [hf] at h
      · injection h with h
        subst h
        exact ⟨fun hc => Bool.noConfusion hc, fun _ => rfl⟩
      · by_cases hm2 : String.mk rest ∈ unitsOf convmagTable
        · rw [if_pos hm2] at h
          injection h with h
          subst h
          exact ⟨fun _ => hm2, fun hc => Bool.noConfusion hc⟩
        · rw [if_neg hm2] at h
          injection h with h
          subst h
          exact ⟨fun hc => Bool.noConfusion hc, fun _ => rfl⟩

/-- A table entry whose forward key is present and whose reverse key is absent
converts forward by multiplication and backward by exact inversion. -/
theorem roundtrip_entry (s e : String) (F : ℚ) (hF : F ≠ 0)
    (hs : s ∈ unitsOf convmagTable) (he : e ∈ unitsOf convmagTable)
    (hfwd : lookupFactor convmagTable (s ++ "_" ++ e) = some F)
    (hrev : lookupFactor convmagTable (e ++ "_" ++ s) = none) (x : ℚ) :
    convVal x s e = some (x * F) ∧ convVal (x * F) e s = some x := by
  have h1 := resolve_mem convmagTable s hs
  have h2 := resolve_mem convmagTable e he
  constructor
  · simp [convVal, convert_unit, convert_unitT, h1, h2, convCore, convValue, hfwd]
  · simp [convVal, convert_unit, convert_unitT, h1, h2, convCore, convValue, hfwd, hrev]
    field_simp

/-- The base unit of a successful resolution is a table unit or the sentinel. -/
theorem resolve_base_mem_or_empty (u : String) (r : ResolveOut)
    (h : resolveUnitT convmagTable u = .ok r) :
    r.base ∈ unitsOf convmagTable ∨ r.base = "" := by
  rcases resolve_ok_cases u r h with ⟨hf, ht⟩
  cases hr : r.unrec
  · exact .inl (hf hr)
  · exact .inr (ht hr)

/-- No key of the conversion table starts or ends with the separator, so a
sentinel empty base unit can never produce a successful lookup. -/
theorem lookup_sentinel :
    (∀ b ∈ unitsOf convmagTable,
        lookupFactor convmagTable ("" ++ "_" ++ b) = none ∧
        lookupFactor convmagTable (b ++ "_" ++ "") = none) ∧
    lookupFactor convmagTable ("" ++ "_" ++ "") = none := by decide

/-- Any key built from a sentinel component misses the table. -/
theorem lookup_with_empty (b : String) (hb : b ∈ unitsOf convmagTable ∨ b = "") :
    lookupFactor convmagTable ("" ++ "_" ++ b) = none ∧
    lookupFactor convmagTable (b ++ "_" ++ "") = none := by
  rcases hb with hb | rfl
  · exact lookup_sentinel.1 b hb
  · exact ⟨lookup_sentinel.2, lookup_sentinel.2⟩

/-- No metric symbol glued onto a base unit yields another base unit, so the
full-string membership test never fires for a prefixed unit string. -/
theorem scaled_not_unit :
    ∀ u ∈ unitsOf convmagTable,
      ("M" ++ u) ∉ unitsOf convmagTable ∧ ("k" ++ u) ∉ unitsOf convmagTable ∧
      ("m" ++ u) ∉ unitsOf convmagTable ∧ ("µ" ++ u) ∉ unitsOf convmagTable := by decide

/-- Resolving a metric symbol glued onto a base unit strips the symbol and
returns its scale. -/
theorem resolve_scaled (p : String) (k : ℚ) (uA : String)
    (hp : (p, k) ∈ factorsTable) (hA : uA ∈ unitsOf convmagTable) :
    resolveUnitT convmagTable (p ++ uA) = .ok ⟨uA, k, false⟩ := by
  have hA' : String.mk uA.data ∈ unitsOf convmagTable := hA
  simp only [factorsTable, List.mem_cons, List.not_mem_nil, or_false,
    Prod.mk.injEq] at hp
  rcases hp with ⟨rfl, rfl⟩ | ⟨rfl, rfl⟩ | ⟨rfl, rfl⟩ | ⟨rfl, rfl⟩
  · unfold resolveUnitT
    rw [if_neg (scaled_not_unit uA hA).1,
      show ("M" ++ uA).data = 'M' :: uA.data from by simp [String.data_append],
      show resolveChars convmagTable ('M' :: uA.data) =
          if String.mk uA.data ∈ unitsOf convmagTable
          then Except.ok ⟨String.mk uA.data, 10 ^ 6, false⟩
          else Except.ok ⟨"", 1, true⟩ from rfl,
      if_pos hA']
  · unfold resolveUnitT
    rw [if_neg (scaled_not_unit uA hA).2.1,
      show ("k" ++ uA).data = 'k' :: uA.data from by simp [String.data_append],
      show resolveChars convmagTable ('k' :: uA.data) =
          if String.mk uA.data ∈ unitsOf convmagTable
          then Except.ok ⟨String.mk uA.data, 10 ^ 3, false⟩
          else Except.ok ⟨"", 1, true⟩ from rfl,
      if_pos hA']
  · unfold resolveUnitT
    rw [if_neg (scaled_not_unit uA hA).2.2.1,
      show ("m" ++ uA).data = 'm' :: uA.data from by simp [String.data_append],
      show resolveChars convmagTable ('m' :: uA.data) =
          if String.mk uA.data ∈ unitsOf convmagTable
          then Except.ok ⟨String.mk uA.data, 1 / 10 ^ 3, false⟩
          else Except.ok ⟨"", 1, true⟩ from rfl,
      if_pos hA']
  · unfold resolveUnitT
    rw [if_neg (scaled_not_unit uA hA).2.2.2,
      show ("µ" ++ uA).data = 'µ' :: uA.data from by simp [String.data_append],
      show resolveChars convmagTable ('µ' :: uA.data) =
          if String.mk uA.data ∈ unitsOf convmagTable
          then Except.ok ⟨String.mk uA.data, 1 / 10 ^ 6, false⟩
          else Except.ok ⟨"", 1, true⟩ from rfl,
      if_pos hA']

/-- C6: the two copies of the conversion table disagree on the key
`"A/m_Oe"`: the package table holds `1e4 * MU_0`, the legacy table
`1e3 * MU_0`, a factor of 10 apart, so the two table-driven `convert_unit`
functions return different results for converting 1 A/m to Oe. -/
theorem C6_tables_disagree :
    lookupFactor convmagTable "A/m_Oe" = some (10 ^ 4 * MU_0) ∧
    lookupFactor convmagLegacyTable "A/m_Oe" = some (10 ^ 3 * MU_0) ∧
    (10 ^ 4 * MU_0 : ℚ) = 10 * (10 ^ 3 * MU_0) ∧
    convert_unitT convmagTable 1 "A/m" "Oe" false ≠
      convert_unitT convmagLegacyTable 1 "A/m" "Oe" false := by
  refine ⟨rfl, rfl, by ring, ?_⟩
  have h1 := resolve_mem convmagTable "A/m" (by decide)
  have h2 := resolve_mem convmagTable "Oe" (by decide)
  have h3 := resolve_mem convmagLegacyTable "A/m" (by decide)
  have h4 := resolve_mem convmagLegacyTable "Oe" (by decide)
  have hv1 : (convCore convmagTable 1 ⟨"A/m", 1, false⟩ ⟨"Oe", 1, false⟩ false).value =
      some (10 ^ 4 * MU_0) := by
    simp [convCore, convValue,
      show lookupFactor convmagTable "A/m_Oe" = some (10 ^ 4 * MU_0) from rfl]
  have hv2 : (convCore convmagLegacyTable 1 ⟨"A/m", 1, false⟩ ⟨"Oe", 1, false⟩ false).value =
      some (10 ^ 3 * MU_0) := by
    simp [convCore, convValue,
      show lookupFactor convmagLegacyTable "A/m_Oe" = some (10 ^ 3 * MU_0) from rfl]
  intro hEq
  unfold convert_unitT at hEq
  simp only [h1, h2, h3, h4] at hEq
  have hval := congrArg ConvOut.value (Except.ok.inj hEq)
  rw [hv1, hv2] at hval
  have hrat : (10 ^ 4 * MU_0 : ℚ) = 10 ^ 3 * MU_0 := Option.some.inj hval
  norm_num [MU_0] at hrat

/-- C7: the unit-cell volume is `a*b*c` for gamma = 90 and `0.866*a^2*c` for
gamma = 120; in particular volume(5,5,5,90) = 125 and
volume(4,4,6,120) = 83.136. -/
theorem C7_unitcell_volume (a b c : ℚ) :
    calculate_unitcell_volume a b c 90 = .ok (a * b * c) ∧
    calculate_unitcell_volume a b c 120 = .ok (866 / 1000 * a ^ 2 * c) ∧
    calculate_unitcell_volume 5 5 5 90 = .ok 125 ∧
    calculate_unitcell_volume 4 4 6 120 = .ok (83136 / 1000) := by
  refine ⟨?_, ?_, ?_, ?_⟩
  · unfold calculate_unitcell_volume
    rw [if_pos rfl]
  · unfold calculate_unitcell_volume
    rw [if_neg (by norm_num), if_pos rfl]
  · unfold calculate_unitcell_volume
    rw [if_pos rfl]
    congr 1
    norm_num
  · unfold calculate_unitcell_volume
    rw [if_neg (by norm_num), if_pos rfl]
    congr 1
    norm_num

/-- C10: for any gamma other than 90 and 120, `calculate_unitcell_volume`
never assigns `vol` and the call faults with `UnboundLocalError`, yielding no
numeric value. -/
theorem C10_volume_unassigned (a b c gamma : ℚ)
    (h90 : gamma ≠ 90) (h120 : gamma ≠ 120) :
    calculate_unitcell_volume a b c gamma = .error .unboundLocalError := by
  unfold calculate_unitcell_volume
  rw [if_neg h90, if_neg h120]

/-- Witness for C10 at gamma = 100. -/
theorem C10_volume_unassigned_witness :
    (100 : ℚ) ≠ 90 ∧ (100 : ℚ) ≠ 120 ∧
    calculate_unitcell_volume 1 2 3 100 = .error .unboundLocalError :=
  ⟨by norm_num, by norm_num, C10_volume_unassigned 1 2 3 100 (by norm_num) (by norm_num)⟩

/-- C8: converting a moment to polarization and back is the identity for
positive formula-unit count and positive cell volume. -/
theorem C8_moment_polarisation_roundtrip (m n v : ℚ) (hn : 0 < n) (hv : 0 < v) :
    Tesla_to_muB_per_fu (muB_per_fu_to_Tesla m n v) n v = m := by
  have hMU0 : MU_0 ≠ 0 := by norm_num [MU_0]
  have hMUB : MU_B ≠ 0 := by norm_num [MU_B]
  have hn' : n ≠ 0 := ne_of_gt hn
  have hv' : v ≠ 0 := ne_of_gt hv
  unfold Tesla_to_muB_per_fu muB_per_fu_to_Tesla
  field_simp
  ring

/-- Witness for C8 at m = 5, n = 2, v = 3. -/
theorem C8_moment_polarisation_roundtrip_witness :
    (0 : ℚ) < 2 ∧ (0 : ℚ) < 3 ∧
    Tesla_to_muB_per_fu (muB_per_fu_to_Tesla 5 2 3) 2 3 = 5 :=
  ⟨by norm_num, by norm_num,
   C8_moment_polarisation_roundtrip 5 2 3 (by norm_num) (by norm_num)⟩

/-- C1: when both unit strings resolve to base units `s_u`, `e_u` with scales
`pre`, `post`, a present forward key gives `x * pre * F / post` and an absent
forward key with a present reverse key gives `x * pre * (1 / F_rev) / post`. -/
theorem C1_convert_formula (x : ℚ) (su eu s_u e_u : String) (pre post : ℚ) (v : Bool)
    (hs : resolveUnitT convmagTable su = .ok ⟨s_u, pre, false⟩)
    (he : resolveUnitT convmagTable eu = .ok ⟨e_u, post, false⟩) :
    (∀ F, lookupFactor convmagTable (s_u ++ "_" ++ e_u) = some F →
        ∃ out, convert_unit x su eu v = .ok out ∧
          out.value = some (x * pre * F / post)) ∧
    (∀ F_rev, lookupFactor convmagTable (s_u ++ "_" ++ e_u) = none →
        lookupFactor convmagTable (e_u ++ "_" ++ s_u) = some F_rev →
        ∃ out, convert_unit x su eu v = .ok out ∧
          out.value = some (x * pre * (1 / F_rev) / post)) := by
  have hconv : convert_unit x su eu v =
      .ok (convCore convmagTable x ⟨s_u, pre, false⟩ ⟨e_u, post, false⟩ v) := by
    unfold convert_unit convert_unitT
    simp only [hs, he]
  constructor
  · intro F hF
    refine ⟨_, hconv, ?_⟩
    simp [convCore, convValue, hF]
  · intro Fr hn hFr
    refine ⟨_, hconv, ?_⟩
    simp [convCore, convValue, hn, hFr]

/-- Witness for C1: 3 kA/m to T through the forward entry `"A/m_T"`. -/
theorem C1_convert_formula_witness :
    resolveUnitT convmagTable "kA/m" = .ok ⟨"A/m", 10 ^ 3, false⟩ ∧
    resolveUnitT convmagTable "T" = .ok ⟨"T", 1, false⟩ ∧
    lookupFactor convmagTable "A/m_T" = some MU_0 ∧
    (∃ out, convert_unit 3 "kA/m" "T" false = .ok out ∧
      out.value = some (3 * 10 ^ 3 * MU_0 / 1)) := by
  have hs : resolveUnitT convmagTable "kA/m" = .ok ⟨"A/m", 10 ^ 3, false⟩ :=
    resolve_scaled "k" (10 ^ 3) "A/m"
      (List.mem_cons_of_mem _ (List.mem_cons_self _ _)) (by decide)
  have he := resolve_mem convmagTable "T" (by decide)
  exact ⟨hs, he, rfl,
    (C1_convert_formula 3 "kA/m" "T" "A/m" "T" (10 ^ 3) 1 false hs he).1 MU_0 rfl⟩

/-- C2 counterexample: converting from the empty unit string raises
`IndexError` at `startunit[0]` (an unrecoverable fault), so resolution does
not merely fail with a recoverable UnrecognizedUnit diagnostic on every
raw unit string. -/
theorem C2_empty_string_faults :
    convert_unit 1 "" "T" false = .error .indexError := by
  have h : resolveUnitT convmagTable "" = .error .indexError := by
    unfold resolveUnitT
    rw [if_neg (by decide)]
    rfl
  unfold convert_unit convert_unitT
  simp only [h]

/-- C2 amended: for every nonempty raw unit string, resolution succeeds or
fails with the UnrecognizedUnit diagnostic and the sentinel, never with an
exception; a string that is a valid full base unit is not mis-split, because
full-string membership is checked before prefix stripping. -/
theorem C2_nonempty_resolution_no_fault (u : String) (hu : u ≠ "") :
    (∃ r, resolveUnitT convmagTable u = .ok r) ∧
    (u ∈ unitsOf convmagTable → resolveUnitT convmagTable u = .ok ⟨u, 1, false⟩) := by
  refine ⟨?_, fun hm => resolve_mem convmagTable u hm⟩
  unfold resolveUnitT
  by_cases hm : u ∈ unitsOf convmagTable
  · rw [if_pos hm]
    exact ⟨_, rfl⟩
  · rw [if_neg hm]
    rcases hd : u.data with _ | ⟨c, rest⟩
    · refine absurd ?_ hu
      have hmk : u = String.mk u.data := rfl
      rw [hd] at hmk
      exact hmk
    · simp only [resolveChars]
      rcases hf : factorsTable.find? (fun kv => kv.1 == String.mk [c]) with _ | kv <;>
        simp only [hf]
      · exact ⟨_, rfl⟩
      · by_cases hm2 : String.mk rest ∈ unitsOf convmagTable
        · rw [if_pos hm2]
          exact ⟨_, rfl⟩
        · rw [if_neg hm2]
          exact ⟨_, rfl⟩

/-- Witness for the amended C2 at the unrecognized unit string "Z". -/
theorem C2_nonempty_resolution_witness :
    "Z" ≠ "" ∧
    ((∃ r, resolveUnitT convmagTable "Z" = .ok r) ∧
     ("Z" ∈ unitsOf convmagTable → resolveUnitT convmagTable "Z" = .ok ⟨"Z", 1, false⟩)) :=
  ⟨by decide, C2_nonempty_resolution_no_fault "Z" (by decide)⟩

/-- C4: every directed table entry round-trips exactly: converting `x`
forward along the entry and the result backward returns `x`. -/
theorem C4_roundtrip (ke : String × ℚ) (hke : ke ∈ convmagTable) (x : ℚ) :
    ∃ s e y, splitOnUS ke.1 = [s, e] ∧ convVal x s e = some y ∧
      convVal y e s = some x := by
  simp only [convmagTable, List.mem_cons, List.not_mem_nil, or_false] at hke
  rcases hke with rfl | rfl | rfl | rfl | rfl | rfl | rfl | rfl | rfl | rfl | rfl | rfl |
    rfl | rfl | rfl | rfl | rfl | rfl
  · have h := roundtrip_entry "T" "G" (10 ^ 4) (by norm_num) (by decide) (by decide)
      rfl (by decide) x
    exact ⟨"T", "G", _, by decide, h.1, h.2⟩
  · have h := roundtrip_entry "T" "Oe" (10 ^ 4) (by norm_num) (by decide) (by decide)
      rfl (by decide) x
    exact ⟨"T", "Oe", _, by decide, h.1, h.2⟩
  · have h := roundtrip_entry "A/m" "T" MU_0 (by norm_num [MU_0]) (by decide) (by decide)
      rfl (by decide) x
    exact ⟨"A/m", "T", _, by decide, h.1, h.2⟩
  · have h := roundtrip_entry "A/m" "G" (10 ^ 4 * MU_0) (by norm_num [MU_0]) (by decide)
      (by decide) rfl (by decide) x
    exact ⟨"A/m", "G", _, by decide, h.1, h.2⟩
  · have h := roundtrip_entry "G" "Oe" 1 (by norm_num) (by decide) (by decide)
      rfl (by decide) x
    exact ⟨"G", "Oe", _, by decide, h.1, h.2⟩
  · have h := roundtrip_entry "A/m" "Oe" (10 ^ 4 * MU_0) (by norm_num [MU_0]) (by decide)
      (by decide) rfl (by decide) x
    exact ⟨"A/m", "Oe", _, by decide, h.1, h.2⟩
  · have h := roundtrip_entry "emu/cm^3" "T" (10 ^ 3 * MU_0) (by norm_num [MU_0])
      (by decide) (by decide) rfl (by decide) x
    exact ⟨"emu/cm^3", "T", _, by decide, h.1, h.2⟩
  · have h := roundtrip_entry "erg/Oecm^3" "A/m" (10 ^ 3) (by norm_num) (by decide)
      (by decide) rfl (by decide) x
    exact ⟨"erg/Oecm^3", "A/m", _, by decide, h.1, h.2⟩
  · have h := roundtrip_entry "emu/g" "Am^2/kg" 1 (by norm_num) (by decide) (by decide)
      rfl (by decide) x
    exact ⟨"emu/g", "Am^2/kg", _, by decide, h.1, h.2⟩
  · have h := roundtrip_entry "J/m^3" "GOe" (10 ^ 8 * MU_0) (by norm_num [MU_0])
      (by decide) (by decide) rfl (by decide) x
    exact ⟨"J/m^3", "GOe", _, by decide, h.1, h.2⟩
  · have h := roundtrip_entry "J/m^3" "erg/cm^3" 10 (by norm_num) (by decide) (by decide)
      rfl (by decide) x
    exact ⟨"J/m^3", "erg/cm^3", _, by decide, h.1, h.2⟩
  · have h := roundtrip_entry "erg/cm^3" "GOe" (10 ^ 7 * MU_0) (by norm_num [MU_0])
      (by decide) (by decide) rfl (by decide) x
    exact ⟨"erg/cm^3", "GOe", _, by decide, h.1, h.2⟩
  · have h := roundtrip_entry "Am^2" "emu" (10 ^ 3) (by norm_num) (by decide) (by decide)
      rfl (by decide) x
    exact ⟨"Am^2", "emu", _, by decide, h.1, h.2⟩
  · have h := roundtrip_entry "Am^2" "erg/G" (10 ^ 3) (by norm_num) (by decide)
      (by decide) rfl (by decide) x
    exact ⟨"Am^2", "erg/G", _, by decide, h.1, h.2⟩
  · have h := roundtrip_entry "Am^2" "erg/Oe" (10 ^ 3) (by norm_num) (by decide)
      (by decide) rfl (by decide) x
    exact ⟨"Am^2", "erg/Oe", _, by decide, h.1, h.2⟩
  · have h := roundtrip_entry "emu" "erg/G" 1 (by norm_num) (by decide) (by decide)
      rfl (by decide) x
    exact ⟨"emu", "erg/G", _, by decide, h.1, h.2⟩
  · have h := roundtrip_entry "muB" "Am^2" MU_B (by norm_num [MU_B]) (by decide)
      (by decide) rfl (by decide) x
    exact ⟨"muB", "Am^2", _, by decide, h.1, h.2⟩
  · have h := roundtrip_entry "muB" "emu" (10 ^ 3 * MU_B) (by norm_num [MU_B])
      (by decide) (by decide) rfl (by decide) x
    exact ⟨"muB", "emu", _, by decide, h.1, h.2⟩

/-- Witness for C4 at the entry `"T_G"` and x = 2. -/
theorem C4_roundtrip_witness :
    ("T_G", (10 ^ 4 : ℚ)) ∈ convmagTable ∧
    (∃ s e y, splitOnUS ("T_G", (10 ^ 4 : ℚ)).1 = [s, e] ∧
      convVal 2 s e = some y ∧ convVal y e s = some 2) :=
  ⟨List.mem_cons_self _ _, C4_roundtrip ("T_G", 10 ^ 4) (List.mem_cons_self _ _) 2⟩

/-- C5: converting from a prefixed start unit scales the unprefixed result by
the metric symbol's factor. -/
theorem C5_scale_linearity (p : String) (k : ℚ) (uA uB : String) (x y : ℚ)
    (hp : (p, k) ∈ factorsTable) (hA : uA ∈ unitsOf convmagTable)
    (hB : uB ∈ unitsOf convmagTable) (hy : convVal x uA uB = some y) :
    convVal x (p ++ uA) uB = some (k * y) := by
  have hs := resolve_scaled p k uA hp hA
  have h1 := resolve_mem convmagTable uA hA
  have h2 := resolve_mem convmagTable uB hB
  unfold convVal convert_unit convert_unitT at hy ⊢
  simp only [h1, h2, convCore, convValue] at hy
  simp only [hs, h2, convCore, convValue]
  rcases hF : lookupFactor convmagTable (uA ++ "_" ++ uB) with _ | F
  · simp only [hF] at hy ⊢
    rcases hR : lookupFactor convmagTable (uB ++ "_" ++ uA) with _ | Fr
    · simp only [hR] at hy
      exact absurd hy (by simp)
    · simp only [hR, Option.some.injEq] at hy ⊢
      rw [← hy]
      ring
  · simp only [hF, Option.some.injEq] at hy ⊢
    rw [← hy]
    ring

/-- Witness for C5: converting 1 mT to G scales 1 T = 1e4 G by 1e-3. -/
theorem C5_scale_linearity_witness :
    ("m", (1 / 10 ^ 3 : ℚ)) ∈ factorsTable ∧ "T" ∈ unitsOf convmagTable ∧
    "G" ∈ unitsOf convmagTable ∧ convVal 1 "T" "G" = some (10 ^ 4) ∧
    convVal 1 "mT" "G" = some (1 / 10 ^ 3 * 10 ^ 4) := by
  have hp : ("m", (1 / 10 ^ 3 : ℚ)) ∈ factorsTable :=
    List.mem_cons_of_mem _ (List.mem_cons_of_mem _ (List.mem_cons_self _ _))
  have hy : convVal 1 "T" "G" = some ((10 : ℚ) ^ 4) := by
    have h1 := resolve_mem convmagTable "T" (by decide)
    have h2 := resolve_mem convmagTable "G" (by decide)
    simp [convVal, convert_unit, convert_unitT, h1, h2, convCore, convValue,
      show lookupFactor convmagTable "T_G" = some (10 ^ 4) from rfl]
  exact ⟨hp, by decide, by decide, hy,
    C5_scale_linearity "m" (1 / 10 ^ 3) "T" "G" 1 (10 ^ 4) hp (by decide) (by decide) hy⟩

/-- C3: the "Conversion not available" diagnostic is produced iff both
resolved base units are valid members of the unit set and neither directed
key exists in the table; a resolution failure suppresses it, and every
failing call yields no numeric result. -/
theorem C3_not_available_iff (x : ℚ) (su eu : String) (v : Bool)
    (r1 r2 : ResolveOut) (out : ConvOut)
    (h1 : resolveUnitT convmagTable su = .ok r1)
    (h2 : resolveUnitT convmagTable eu = .ok r2)
    (hout : convert_unit x su eu v = .ok out) :
    (out.notAvailable = true ↔
        r1.base ∈ unitsOf convmagTable ∧ r2.base ∈ unitsOf convmagTable ∧
        lookupFactor convmagTable (r1.base ++ "_" ++ r2.base) = none ∧
        lookupFactor convmagTable (r2.base ++ "_" ++ r1.base) = none) ∧
    (r1.unrec = true ∨ r2.unrec = true → out.notAvailable = false) ∧
    (r1.unrec = true ∨ r2.unrec = true ∨ out.notAvailable = true →
        out.value = none) := by
  have hb1 := resolve_base_mem_or_empty su r1 h1
  have hb2 := resolve_base_mem_or_empty eu r2 h2
  have hu1 : r1.unrec = true → r1.base = "" := (resolve_ok_cases su r1 h1).2
  have hu2 : r2.unrec = true → r2.base = "" := (resolve_ok_cases eu r2 h2).2
  have hemp : ("" : String) ∉ unitsOf convmagTable := by decide
  have hcore : out = convCore convmagTable x r1 r2 v := by
    unfold convert_unit convert_unitT at hout
    simp only [h1, h2] at hout
    exact (Except.ok.inj hout).symm
  subst hcore
  have hprojNA : (convCore convmagTable x r1 r2 v).notAvailable =
      convNotAvail convmagTable r1 r2 := rfl
  have hprojV : (convCore convmagTable x r1 r2 v).value =
      convValue convmagTable x r1 r2 := rfl
  refine ⟨?_, ?_, ?_⟩
  · rw [hprojNA]
    unfold convNotAvail
    rcases hA : lookupFactor convmagTable (r1.base ++ "_" ++ r2.base) with _ | F
    · rcases hB : lookupFactor convmagTable (r2.base ++ "_" ++ r1.base) with _ | Fr
      · simp [hA, hB]
      · simp [hA, hB]
    · simp [hA]
  · intro hor
    rw [hprojNA]
    unfold convNotAvail
    rcases hA : lookupFactor convmagTable (r1.base ++ "_" ++ r2.base) with _ | F
    · rcases hB : lookupFactor convmagTable (r2.base ++ "_" ++ r1.base) with _ | Fr
      · rcases hor with hu | hu
        · simp [hA, hB, hu1 hu, hemp]
        · simp [hA, hB, hu2 hu, hemp]
      · simp [hA, hB]
    · simp [hA]
  · intro hor
    rw [hprojV]
    unfold convValue
    rcases hA : lookupFactor convmagTable (r1.base ++ "_" ++ r2.base) with _ | F
    · rcases hB : lookupFactor convmagTable (r2.base ++ "_" ++ r1.base) with _ | Fr
      · simp [hA, hB]
      · exfalso
        rcases hor with hu | hu | hav
        · rw [hu1 hu] at hB
          rw [(lookup_with_empty r2.base hb2).2] at hB
          exact Option.noConfusion hB
        · rw [hu2 hu] at hB
          rw [(lookup_with_empty r1.base hb1).1] at hB
          exact Option.noConfusion hB
        · have hna : convNotAvail convmagTable r1 r2 = true := hav
          unfold convNotAvail at hna
          simp only [hA, hB] at hna
          exact Bool.noConfusion hna
    · exfalso
      rcases hor with hu | hu | hav
      · rw [hu1 hu] at hA
        rw [(lookup_with_empty r2.base hb2).1] at hA
        exact Option.noConfusion hA
      · rw [hu2 hu] at hA
        rw [(lookup_with_empty r1.base hb1).2] at hA
        exact Option.noConfusion hA
      · have hna : convNotAvail convmagTable r1 r2 = true := hav
        unfold convNotAvail at hna
        simp only [hA] at hna
        exact Bool.noConfusion hna

/-- Witness for C3: converting 1 G to muB, a cross-family pair with no table
relationship, produces the diagnostic and no value. -/
theorem C3_not_available_witness :
    resolveUnitT convmagTable "G" = .ok ⟨"G", 1, false⟩ ∧
    resolveUnitT convmagTable "muB" = .ok ⟨"muB", 1, false⟩ ∧
    convert_unit 1 "G" "muB" false = .ok ⟨none, false, false, true, none⟩ ∧
    (((⟨none, false, false, true, none⟩ : ConvOut).notAvailable = true ↔
        (⟨"G", 1, false⟩ : ResolveOut).base ∈ unitsOf convmagTable ∧
        (⟨"muB", 1, false⟩ : ResolveOut).base ∈ unitsOf convmagTable ∧
        lookupFactor convmagTable
          ((⟨"G", 1, false⟩ : ResolveOut).base ++ "_" ++
            (⟨"muB", 1, false⟩ : ResolveOut).base) = none ∧
        lookupFactor convmagTable
          ((⟨"muB", 1, false⟩ : ResolveOut).base ++ "_" ++
            (⟨"G", 1, false⟩ : ResolveOut).base) = none) ∧
     ((⟨"G", 1, false⟩ : ResolveOut).unrec = true ∨
        (⟨"muB", 1, false⟩ : ResolveOut).unrec = true →
        (⟨none, false, false, true, none⟩ : ConvOut).notAvailable = false) ∧
     ((⟨"G", 1, false⟩ : ResolveOut).unrec = true ∨
        (⟨"muB", 1, false⟩ : ResolveOut).unrec = true ∨
        (⟨none, false, false, true, none⟩ : ConvOut).notAvailable = true →
        (⟨none, false, false, true, none⟩ : ConvOut).value = none)) := by
  have hg := resolve_mem convmagTable "G" (by decide)
  have hm := resolve_mem convmagTable "muB" (by decide)
  have hout : convert_unit 1 "G" "muB" false = .ok ⟨none, false, false, true, none⟩ := by
    simp [convert_unit, convert_unitT, hg, hm, convCore, convValue, convNotAvail,
      show lookupFactor convmagTable "G_muB" = none from by decide,
      show lookupFactor convmagTable "muB_G" = none from by decide]
    exact ⟨by decide, by decide⟩
  exact ⟨hg, hm, hout, C3_not_available_iff 1 "G" "muB" false _ _ _ hg hm hout⟩

/-- C9 counterexample: the result −1 G→Oe has absolute value inside
[1e-3, 1e3] yet the verbose branch prints scientific notation, because the
code compares the signed value `1e3 >= conv >= 1e-3`, not the magnitude. -/
theorem C9_signed_comparison_counterexample :
    convert_unit (-1) "G" "Oe" true =
      .ok ⟨some (-1), false, false, false, some NumFmt.sci5⟩ ∧
    1 / 1000 ≤ |(-1 : ℚ)| ∧ |(-1 : ℚ)| ≤ 1000 := by
  refine ⟨?_, by norm_num, by norm_num⟩
  have h := resolve_mem convmagTable "G" (by decide)
  have h2 := resolve_mem convmagTable "Oe" (by decide)
  simp [convert_unit, convert_unitT, h, h2, convCore, convValue, convNotAvail,
    verboseFormat, show lookupFactor convmagTable "G_Oe" = some 1 from rfl]
  norm_num

/-- C9 amended: with verbose enabled and a numeric result produced, the
message is fixed-point with 5 decimals exactly when
`1e-3 <= result <= 1e3` holds for the signed result (not its absolute
value), and scientific with 5 decimals otherwise. -/
theorem C9_verbose_format (x : ℚ) (su eu : String) (out : ConvOut) (y : ℚ)
    (hout : convert_unit x su eu true = .ok out) (hy : out.value = some y) :
    out.verboseFmt =
      some (if 1000 ≥ y ∧ y ≥ 1 / 1000 then NumFmt.fixed5 else NumFmt.sci5) := by
  unfold convert_unit convert_unitT at hout
  rcases hr1 : resolveUnitT convmagTable su with e | r1
  · simp only [hr1] at hout
    exact Except.noConfusion hout
  · simp only [hr1] at hout
    rcases hr2 : resolveUnitT convmagTable eu with e | r2
    · simp only [hr2] at hout
      exact Except.noConfusion hout
    · simp only [hr2] at hout
      have hco : out = convCore convmagTable x r1 r2 true := (Except.ok.inj hout).symm
      subst hco
      have hyv : convValue convmagTable x r1 r2 = some y := hy
      have hfmt : (convCore convmagTable x r1 r2 true).verboseFmt =
          verboseFormat (convValue convmagTable x r1 r2) := by
        unfold convCore
        simp
      rw [hfmt, hyv]
      unfold verboseFormat
      rfl

/-- Witness for the amended C9: 1 G→Oe gives 1, inside the fixed-point band. -/
theorem C9_verbose_format_witness :
    convert_unit 1 "G" "Oe" true =
      .ok ⟨some 1, false, false, false, some NumFmt.fixed5⟩ ∧
    (⟨some 1, false, false, false, some NumFmt.fixed5⟩ : ConvOut).value = some 1 ∧
    (⟨some 1, false, false, false, some NumFmt.fixed5⟩ : ConvOut).verboseFmt =
      some (if 1000 ≥ (1 : ℚ) ∧ (1 : ℚ) ≥ 1 / 1000
            then NumFmt.fixed5 else NumFmt.sci5) := by
  have h := resolve_mem convmagTable "G" (by decide)
  have h2 := resolve_mem convmagTable "Oe" (by decide)
  have hout : convert_unit 1 "G" "Oe" true =
      .ok ⟨some 1, false, false, false, some NumFmt.fixed5⟩ := by
    simp [convert_unit, convert_unitT, h, h2, convCore, convValue, convNotAvail,
      verboseFormat, show lookupFactor convmagTable "G_Oe" = some 1 from rfl]
    norm_num
  exact ⟨hout, rfl, C9_verbose_format 1 "G" "Oe" _ 1 hout rfl⟩

end Convmag
